import Mathlib

/-!
Verification development for the document question-answering system
(`config.py`, `ingestion/chunker.py`, `retrieval/vector_store.py`,
`rag/pipeline.py`).  Python strings are modelled as Lean `String`
(a wrapper around `List Char`, matching Python's code-point indexing),
Python ints as `Nat`/`Int`, and Python floats as exact rationals `ℚ`
(the float computations of the source are modelled exactly; none of the
verified claims hinges on rounding of binary floating point).
Fallible operations return `Except String`.
-/

/- ----------------------------------------------------------------- -/
/- Configuration constants from `config.py`.                          -/
/- ----------------------------------------------------------------- -/

/-- Configured characters per chunk (`config.CHUNK_SIZE`). -/
def CHUNK_SIZE : Nat := 500

/-- Configured characters shared between consecutive chunks (`config.CHUNK_OVERLAP`). -/
def CHUNK_OVERLAP : Nat := 50

/-- Configured embedding dimension (`config.EMBEDDING_DIM`). -/
def EMBEDDING_DIM : Nat := 384

/-- Configured default retrieval count (`config.TOP_K_RESULTS`). -/
def TOP_K_RESULTS : Int := 5

/- ----------------------------------------------------------------- -/
/- Python string primitives used by the source.                       -/
/- ----------------------------------------------------------------- -/

/-- Whitespace predicate of Python `str.strip()` (ASCII whitespace;
the documents in play never reach the extra Unicode space classes). -/
def pyIsSpace (c : Char) : Bool :=
  c = ' ' ∨ c = '\t' ∨ c = '\n' ∨ c = '\r' ∨ c = '\x0b' ∨ c = '\x0c'

/-- Python `str.strip()`: remove leading and trailing whitespace. -/
def pyStrip (l : List Char) : List Char :=
  ((l.dropWhile pyIsSpace).reverse.dropWhile pyIsSpace).reverse

lemma data_mk (l : List Char) : (String.mk l).data = l := rfl

/-- Clamp one bound of a Python slice `l[a:b]` to `[0, len]`,
resolving negative positions from the end of the string. -/
def pySliceIdx (len : Nat) (i : Int) : Nat :=
  if i < 0 then (max 0 ((len : Int) + i)).toNat else min i.toNat len

/-- Python slice `l[a:b]` (step 1), including negative-index semantics. -/
def pySlice (l : List Char) (a b : Int) : List Char :=
  (l.take (pySliceIdx l.length b)).drop (pySliceIdx l.length a)

/-- Python list subscript `l[i]`: a negative `i` counts from the end;
an index out of range raises `IndexError`. -/
def pyGet {α : Type} (l : List α) (i : Int) : Except String α :=
  let j : Int := if i < 0 then (l.length : Int) + i else i
  if h : 0 ≤ j ∧ j < (l.length : Int) then
    Except.ok (l.get ⟨j.toNat, by omega⟩)
  else
    Except.error "IndexError: list index out of range"

/- ----------------------------------------------------------------- -/
/- `ingestion/chunker.py`                                             -/
/- ----------------------------------------------------------------- -/

/-- A chunk record as built by `split_text_into_chunks`
(dict with keys `chunk_id`, `text`, `source`, `page_number`). -/
structure Chunk where
  chunk_id : String
  text : String
  source : String
  page_number : Nat
deriving DecidableEq, Repr

/-- The chunk record appended in one iteration of the `while` loop of
`split_text_into_chunks` (`chunk_text = text[start:end]` then `.strip()`). -/
def mkChunk (source : String) (page_number : Nat) (chunk_text : List Char)
    (chunk_index : Nat) : Chunk :=
  { chunk_id := source ++ "_page" ++ toString page_number ++ "_chunk" ++ toString chunk_index
    text := String.mk (pyStrip chunk_text)
    source := source
    page_number := page_number }

/-- The `while start < len(text)` loop of `split_text_into_chunks`, modelled
literally: the cursor `start` is a Python int (`Int`, it can go negative when
`CHUNK_OVERLAP > CHUNK_SIZE`), the slice uses Python slice semantics, and the
loop is driven by explicit fuel — `none` means the fuel ran out while the
loop condition was still true, i.e. the loop had not terminated yet. -/
def splitLoopPy (S O : Nat) (source : String) (page_number : Nat)
    (text : List Char) : Int → Nat → Nat → Option (List Chunk)
  | start, _, 0 =>
    if start < (text.length : Int) then none else some []
  | start, chunk_index, fuel + 1 =>
    if start < (text.length : Int) then
      (splitLoopPy S O source page_number text
          (start + ((S : Int) - (O : Int))) (chunk_index + 1) fuel).map
        (fun rest =>
          mkChunk source page_number (pySlice text start (start + (S : Int))) chunk_index :: rest)
    else some []

/-- The same loop specialised to an always-nonnegative cursor, total in the
fuel (the bridge lemma `splitLoopPy_eq_splitLoopNat` shows it agrees with
`splitLoopPy` whenever `overlap < chunk_size` and the fuel suffices). -/
def splitLoopNat (S O : Nat) (source : String) (page_number : Nat)
    (text : List Char) : Nat → Nat → Nat → List Chunk
  | _, _, 0 => []
  | start, chunk_index, fuel + 1 =>
    if start < text.length then
      mkChunk source page_number ((text.drop start).take S) chunk_index ::
        splitLoopNat S O source page_number text (start + (S - O)) (chunk_index + 1) fuel
    else []

/-- `split_text_into_chunks(text, source, page_number)` of
`ingestion/chunker.py`, with the configuration constants `CHUNK_SIZE` and
`CHUNK_OVERLAP` passed explicitly as `S` and `O`.  `text.data.length + 1`
units of fuel always suffice when `O < S` (each iteration advances the
cursor by `S - O ≥ 1`). -/
def split_text_into_chunks (S O : Nat) (text : String) (source : String)
    (page_number : Nat) : List Chunk :=
  splitLoopNat S O source page_number text.data 0 0 (text.data.length + 1)

/- ----------------------------------------------------------------- -/
/- Statements taken from the specification text (used to compare the  -/
/- spec's claims against the code; they are NOT translations of the   -/
/- source).                                                           -/
/- ----------------------------------------------------------------- -/

/-- Fragment count stated by the spec: `n = 1` if `L ≤ S`, else
`ceil((L-O)/(S-O))`.  Written from the spec's words, to be compared with
the count the code actually produces. -/
def specFragmentCount (L S O : Nat) : Nat :=
  if L ≤ S then 1 else (L - O + (S - O) - 1) / (S - O)

/- ----------------------------------------------------------------- -/
/- Chunker helper lemmas.                                             -/
/- ----------------------------------------------------------------- -/

lemma splitLoopNat_length (S O : Nat) (src : String) (pg : Nat) (text : List Char)
    (hd : 0 < S - O) :
    ∀ (fuel start chunk_index : Nat), text.length - start ≤ fuel * (S - O) →
      (splitLoopNat S O src pg text start chunk_index fuel).length
        = (text.length - start + (S - O) - 1) / (S - O) := by
  intro fuel
  induction fuel with
  | zero =>
    intro start chunk_index h
    have h0 : text.length - start = 0 := by omega
    have hlt : 0 + (S - O) - 1 < S - O := by omega
    simp only [splitLoopNat, List.length_nil, h0, Nat.div_eq_of_lt hlt]
  | succ fuel ih =>
    intro start chunk_index h
    by_cases hs : start < text.length
    · have hrec : text.length - (start + (S - O)) ≤ fuel * (S - O) := by
        have : (fuel + 1) * (S - O) = fuel * (S - O) + (S - O) := by ring
        omega
      have := ih (start + (S - O)) (chunk_index + 1) hrec
      simp only [splitLoopNat, if_pos hs, List.length_cons, this]
      -- arithmetic: adding one full step to the count
      rcases le_or_lt (text.length - start) (S - O) with hle | hgt
      · have e1 : text.length - (start + (S - O)) = 0 := by omega
        have e2 : text.length - start + (S - O) - 1
            = (text.length - start - 1) + (S - O) := by omega
        have e3 : 0 + (S - O) - 1 < S - O := by omega
        have e4 : text.length - start - 1 < S - O := by omega
        rw [e1, e2, Nat.add_div_right _ hd, Nat.div_eq_of_lt e3, Nat.div_eq_of_lt e4]
      · have e1 : text.length - (start + (S - O)) + (S - O) - 1
            = text.length - start - 1 := by omega
        have e2 : text.length - start + (S - O) - 1
            = (text.length - start - 1) + (S - O) := by omega
        rw [e1, e2, Nat.add_div_right _ hd]
    · have h0 : text.length - start = 0 := by omega
      have hlt : 0 + (S - O) - 1 < S - O := by omega
      simp only [splitLoopNat, if_neg hs, List.length_nil, h0, Nat.div_eq_of_lt hlt]

lemma splitLoopNat_get? (S O : Nat) (src : String) (pg : Nat) (text : List Char)
    (hd : 0 < S - O) :
    ∀ (fuel start chunk_index j : Nat), text.length - start ≤ fuel * (S - O) →
      j < (splitLoopNat S O src pg text start chunk_index fuel).length →
      (splitLoopNat S O src pg text start chunk_index fuel).get? j
        = some (mkChunk src pg ((text.drop (start + j * (S - O))).take S) (chunk_index + j)) := by
  intro fuel
  induction fuel with
  | zero =>
    intro start chunk_index j _ hj
    simp only [splitLoopNat, List.length_nil] at hj
    omega
  | succ fuel ih =>
    intro start chunk_index j h hj
    by_cases hs : start < text.length
    · have hrec : text.length - (start + (S - O)) ≤ fuel * (S - O) := by
        have : (fuel + 1) * (S - O) = fuel * (S - O) + (S - O) := by ring
        omega
      have hl : splitLoopNat S O src pg text start chunk_index (fuel + 1)
          = mkChunk src pg ((text.drop start).take S) chunk_index ::
              splitLoopNat S O src pg text (start + (S - O)) (chunk_index + 1) fuel := by
        simp only [splitLoopNat, if_pos hs]
      cases j with
      | zero =>
        rw [hl]
        simp
      | succ j' =>
        have hj' : j' < (splitLoopNat S O src pg text (start + (S - O)) (chunk_index + 1) fuel).length := by
          rw [hl] at hj
          simpa using hj
        have hrw := ih (start + (S - O)) (chunk_index + 1) j' hrec hj'
        have e1 : chunk_index + 1 + j' = chunk_index + (j' + 1) := by omega
        have e2 : start + (S - O) + j' * (S - O) = start + (j' + 1) * (S - O) := by ring
        rw [hl, List.get?_cons_succ, hrw, e1, e2]
    · simp only [splitLoopNat, if_neg hs, List.length_nil] at hj
      omega

lemma split_fuel_sufficient (S O : Nat) (text : List Char) (hO : O < S) :
    text.length - 0 ≤ (text.length + 1) * (S - O) := by
  have hd : 1 ≤ S - O := by omega
  have := Nat.mul_le_mul_left (text.length + 1) hd
  omega

lemma split_text_length (S O : Nat) (text : String) (src : String) (pg : Nat)
    (hO : O < S) :
    (split_text_into_chunks S O text src pg).length
      = (text.data.length + (S - O) - 1) / (S - O) := by
  have hd : 0 < S - O := by omega
  have h := splitLoopNat_length S O src pg text.data hd (text.data.length + 1) 0 0
    (split_fuel_sufficient S O text.data hO)
  simpa [split_text_into_chunks] using h

lemma split_text_get (S O : Nat) (text : String) (src : String) (pg : Nat)
    (hO : O < S) (j : Nat) (hj : j < (split_text_into_chunks S O text src pg).length) :
    (split_text_into_chunks S O text src pg).get ⟨j, hj⟩
      = mkChunk src pg ((text.data.drop (j * (S - O))).take S) j := by
  have hd : 0 < S - O := by omega
  have h := splitLoopNat_get? S O src pg text.data hd (text.data.length + 1) 0 0 j
    (split_fuel_sufficient S O text.data hO) hj
  have h' : (split_text_into_chunks S O text src pg).get? j
      = some (mkChunk src pg ((text.data.drop (0 + j * (S - O))).take S) (0 + j)) := h
  rw [List.get?_eq_get hj] at h'
  have h2 := Option.some.inj h'
  simpa using h2

lemma pySlice_nat (l : List Char) (a S : Nat) :
    pySlice l (a : Int) ((a : Int) + (S : Int)) = (l.drop a).take S := by
  unfold pySlice pySliceIdx
  have h1 : ¬ ((a : Int) < 0) := by omega
  have h2 : ¬ ((a : Int) + (S : Int) < 0) := by omega
  rw [if_neg h1, if_neg h2]
  have e1 : ((a : Int) + (S : Int)).toNat = a + S := by omega
  have e2 : (a : Int).toNat = a := by omega
  rw [e1, e2]
  rcases le_or_lt l.length a with hle | hlt
  · have e3 : min a l.length = l.length := by omega
    rw [e3]
    have d1 : (l.take (min (a + S) l.length)).drop l.length = [] := by
      apply List.drop_eq_nil_of_le
      simp only [List.length_take]
      omega
    have d2 : l.drop a = [] := List.drop_eq_nil_of_le hle
    rw [d1, d2]
    simp
  · have e3 : min a l.length = a := by omega
    rw [e3, List.drop_take]
    rcases le_or_lt S (l.length - a) with hS | hS
    · have e4 : min (a + S) l.length - a = S := by omega
      rw [e4]
    · have e4 : min (a + S) l.length - a = l.length - a := by omega
      rw [e4, List.take_of_length_le, List.take_of_length_le]
      · simp only [List.length_drop]
        omega
      · simp only [List.length_drop]
        omega

lemma splitLoopPy_eq_splitLoopNat (S O : Nat) (src : String) (pg : Nat)
    (text : List Char) (hO : O < S) :
    ∀ (fuel start chunk_index : Nat), text.length - start ≤ fuel * (S - O) →
      splitLoopPy S O src pg text (start : Int) chunk_index fuel
        = some (splitLoopNat S O src pg text start chunk_index fuel) := by
  intro fuel
  induction fuel with
  | zero =>
    intro start chunk_index h
    have hs : ¬ ((start : Int) < (text.length : Int)) := by omega
    simp only [splitLoopPy, splitLoopNat, if_neg hs]
  | succ fuel ih =>
    intro start chunk_index h
    by_cases hs : start < text.length
    · have hsi : (start : Int) < (text.length : Int) := by exact_mod_cast hs
      have hrec : text.length - (start + (S - O)) ≤ fuel * (S - O) := by
        have : (fuel + 1) * (S - O) = fuel * (S - O) + (S - O) := by ring
        omega
      have hcast : (start : Int) + ((S : Int) - (O : Int)) = ((start + (S - O) : Nat) : Int) := by
        omega
      simp only [splitLoopPy, splitLoopNat, if_pos hs, if_pos hsi, hcast,
        ih _ _ hrec, Option.map_some', pySlice_nat]
    · have hsi : ¬ ((start : Int) < (text.length : Int)) := by
        omega
      simp only [splitLoopPy, splitLoopNat, if_neg hs, if_neg hsi]

/-- Faithfulness of `split_text_into_chunks` to the Python `while` loop:
whenever `overlap < chunk_size`, the literal loop model terminates within
`len(text) + 1` iterations and produces exactly `split_text_into_chunks`. -/
theorem splitLoopPy_complete (S O : Nat) (text : String) (src : String)
    (pg : Nat) (hO : O < S) :
    splitLoopPy S O src pg text.data 0 0 (text.data.length + 1)
      = some (split_text_into_chunks S O text src pg) := by
  have h := splitLoopPy_eq_splitLoopNat S O src pg text.data hO
    (text.data.length + 1) 0 0 (split_fuel_sufficient S O text.data hO)
  simpa [split_text_into_chunks] using h

lemma splitLoopPy_stuck (S O : Nat) (src : String) (pg : Nat) (text : List Char)
    (hSO : S ≤ O) (hL : 1 ≤ text.length) :
    ∀ (fuel : Nat) (start : Int) (chunk_index : Nat), start ≤ 0 →
      splitLoopPy S O src pg text start chunk_index fuel = none := by
  intro fuel
  induction fuel with
  | zero =>
    intro start chunk_index h
    have hs : start < (text.length : Int) := by omega
    simp only [splitLoopPy, if_pos hs]
  | succ fuel ih =>
    intro start chunk_index h
    have hs : start < (text.length : Int) := by omega
    have hstep : start + ((S : Int) - (O : Int)) ≤ 0 := by omega
    simp only [splitLoopPy, if_pos hs, ih _ _ hstep, Option.map_none']

/- ----------------------------------------------------------------- -/
/- `retrieval/vector_store.py` and its FAISS index.                   -/
/- ----------------------------------------------------------------- -/

/-- A chunk dict carrying an `embedding` key, as admitted to the vector
store (`chunks_with_embeddings` of `VectorStore.add_chunks`). -/
structure EmbeddedChunk where
  chunk_id : String
  text : String
  source : String
  page_number : Nat
  embedding : List ℚ
deriving DecidableEq, Repr

/-- Squared L2 distance between two vectors (the metric of
`faiss.IndexFlatL2`; the source's float32 arithmetic is modelled exactly
over `ℚ`). -/
def sqL2 (q v : List ℚ) : ℚ :=
  ((q.zip v).map (fun p => (p.1 - p.2) * (p.1 - p.2))).sum

/-- Pair every stored vector with its distance to the query and its
insertion index. -/
def distsFrom (q : List ℚ) : Nat → List (List ℚ) → List (ℚ × Int)
  | _, [] => []
  | i, v :: rest => (sqL2 q v, (i : Int)) :: distsFrom q (i + 1) rest

/-- Ranking order of search results: ascending distance, ties broken by
ascending insertion index (the deterministic tie rule the spec recommends;
FAISS itself leaves the tie order unspecified, and no settled claim
depends on it). -/
def faissLe (a b : ℚ × Int) : Prop :=
  a.1 < b.1 ∨ (a.1 = b.1 ∧ a.2 ≤ b.2)

instance : DecidableRel faissLe := fun a b => by
  unfold faissLe
  exact inferInstance

/-- The sentinel distance FAISS reports for a missing neighbor slot:
`FLT_MAX = (2^24 - 1) * 2^104 = 340282346638528859811704183484516925440`,
written as an explicit reduced rational. -/
def faissFltMax : ℚ :=
  ⟨(340282346638528859811704183484516925440 : Int), 1, one_ne_zero,
    Nat.coprime_one_right _⟩

/-- Modelled from the documented semantics of `faiss.IndexFlatL2.search`
(the library is an external dependency): exact k-nearest-neighbor search
returning `k` `(distance, label)` pairs per query; when the index holds
fewer than `k` vectors the remaining slots are padded with label `-1` and
distance `FLT_MAX`; a non-positive `k` is rejected
(`FAISS_THROW_IF_NOT(k > 0)`), as is a query of the wrong dimension. -/
def faissSearch (d : Nat) (xs : List (List ℚ)) (query : List ℚ) (k : Int) :
    Except String (List (ℚ × Int)) :=
  if query.length ≠ d then
    Except.error "AssertionError: query dimension does not match index"
  else if k ≤ 0 then
    Except.error "RuntimeError: k must be positive"
  else
    let sorted := List.insertionSort faissLe (distsFrom query 0 xs)
    Except.ok (sorted.take k.toNat ++ List.replicate (k.toNat - xs.length) (faissFltMax, -1))

/-- State of `VectorStore`: the FAISS index (dimension and stored vectors,
in insertion order) plus the parallel `self.chunks` metadata list. -/
structure VectorStore where
  d : Nat
  xs : List (List ℚ)
  chunks : List EmbeddedChunk
deriving DecidableEq, Repr

/-- `VectorStore.__init__`: `faiss.IndexFlatL2(EMBEDDING_DIM)` and an empty
`chunks` list. -/
def VectorStore.init : VectorStore :=
  { d := EMBEDDING_DIM, xs := [], chunks := [] }

/-- `VectorStore.add_chunks`: extract the embeddings, build the numpy
batch, add it to the FAISS index, then extend `self.chunks`.  Each failure
mode of the source (`np.array` of an empty or ragged list has no valid
2-d float shape; `faiss` rejects a dimension mismatch) raises before any
state is modified. -/
def VectorStore.add_chunks (vs : VectorStore)
    (chunks_with_embeddings : List EmbeddedChunk) : Except String VectorStore :=
  let embeddings := chunks_with_embeddings.map (fun c => c.embedding)
  if chunks_with_embeddings.isEmpty then
    Except.error "ValueError: not enough values to unpack"
  else if embeddings.any (fun e => e.length ≠ (embeddings.headD []).length) then
    Except.error "ValueError: ragged embedding batch"
  else if (embeddings.headD []).length ≠ vs.d then
    Except.error "AssertionError: embedding dimension does not match index"
  else
    Except.ok { vs with
      xs := vs.xs ++ embeddings
      chunks := vs.chunks ++ chunks_with_embeddings }

/-- The result loop of `VectorStore.search`:
`for i, idx in enumerate(indices[0]): if idx < len(self.chunks):
chunk = self.chunks[idx]; results.append((chunk, distances[0][i]))`.
Note the guard is a plain `<` comparison, and the subscript
`self.chunks[idx]` uses Python indexing (`pyGet`). -/
def buildResults (chunks : List EmbeddedChunk) :
    List (ℚ × Int) → Except String (List (EmbeddedChunk × ℚ))
  | [] => Except.ok []
  | (distance, idx) :: rest =>
    if idx < (chunks.length : Int) then
      match pyGet chunks idx with
      | Except.error e => Except.error e
      | Except.ok chunk =>
        match buildResults chunks rest with
        | Except.error e => Except.error e
        | Except.ok results => Except.ok ((chunk, distance) :: results)
    else
      buildResults chunks rest

/-- `VectorStore.search` in state-passing form: the method reads
`self.index` and `self.chunks` and assigns to neither, so the returned
state is the input state. -/
def VectorStore.searchM (vs : VectorStore) (query_embedding : List ℚ)
    (k : Int) : Except String (List (EmbeddedChunk × ℚ)) × VectorStore :=
  (match faissSearch vs.d vs.xs query_embedding k with
   | Except.error e => Except.error e
   | Except.ok pairs => buildResults vs.chunks pairs,
   vs)

/-- The value returned by `VectorStore.search`. -/
def VectorStore.search (vs : VectorStore) (query_embedding : List ℚ)
    (k : Int) : Except String (List (EmbeddedChunk × ℚ)) :=
  (vs.searchM query_embedding k).1

/-- Contents of the serialized FAISS index artifact
(`faiss.write_index` / `faiss.read_index` round-trip the index exactly). -/
structure FaissIndexFile where
  d : Nat
  xs : List (List ℚ)
deriving DecidableEq, Repr

/-- The two co-located artifacts of `VECTOR_STORE_DIR`: `faiss.index` and
`chunks.pkl`; `none` models an absent file. -/
structure DiskState where
  faiss_index : Option FaissIndexFile
  chunks_pkl : Option (List EmbeddedChunk)
deriving DecidableEq, Repr

/-- `VectorStore.save_to_disk`: write both artifacts (pickle round-trips
the chunk list exactly). -/
def VectorStore.save_to_disk (vs : VectorStore) (_disk : DiskState) : DiskState :=
  { faiss_index := some { d := vs.d, xs := vs.xs }
    chunks_pkl := some vs.chunks }

/-- `VectorStore.load_from_disk`: if either file is missing, return
`False` leaving the state unchanged; otherwise replace the index and the
chunk list with the artifacts' contents and return `True`. -/
def VectorStore.load_from_disk (vs : VectorStore) (disk : DiskState) :
    Bool × VectorStore :=
  match disk.faiss_index, disk.chunks_pkl with
  | some f, some cs => (true, { d := f.d, xs := f.xs, chunks := cs })
  | some _, none => (false, vs)
  | none, some _ => (false, vs)
  | none, none => (false, vs)

/-- The parallel-sequences invariant of the spec's data model:
`len(fragments) == len(vectors)`. -/
def lenInv (vs : VectorStore) : Prop :=
  vs.chunks.length = vs.xs.length

/- ----------------------------------------------------------------- -/
/- `rag/pipeline.py`                                                  -/
/- ----------------------------------------------------------------- -/

/-- `build_context(retrieved_chunks)`: the `context_parts` list is built
by appending `f"Chunk {i} [Source: {source}, Page {page}]:\n{text}\n"`
for `i, (chunk, distance) in enumerate(retrieved_chunks, 1)`, then joined
with `"\n".join(context_parts)`. -/
def build_context (retrieved_chunks : List (EmbeddedChunk × ℚ)) : String :=
  let context_parts : List String :=
    (List.enumFrom 1 retrieved_chunks).foldl
      (fun acc p =>
        acc ++ ["Chunk " ++ toString p.1 ++ " [Source: " ++ p.2.1.source
          ++ ", Page " ++ toString p.2.1.page_number ++ "]:\n" ++ p.2.1.text ++ "\n"])
      []
  String.intercalate "\n" context_parts

/-- `create_prompt(question, context)`: the fixed instruction template. -/
def create_prompt (question : String) (context : String) : String :=
  "You are a helpful AI assistant that answers questions based on the provided document context.\n\nIMPORTANT INSTRUCTIONS:\n- Only use information from the context below to answer the question\n- If the answer is not in the context, say \"I cannot find this information in the provided documents\"\n- Always cite which source and page number you got the information from\n- Be concise and accurate\n\nCONTEXT:\n"
    ++ context ++ "\n\nQUESTION: " ++ question ++ "\n\nANSWER:"

/-- A citation dict of `generate_answer` (keys `source`, `page`,
`relevance`). -/
structure SourceCitation where
  source : String
  page : Nat
  relevance : ℚ
deriving DecidableEq, Repr

/-- Round a rational to the nearest integer, ties to even (the rounding
mode of Python's `round`). -/
def pyRoundInt (y : ℚ) : Int :=
  if y - ⌊y⌋ < 1 / 2 then ⌊y⌋
  else if (1 : ℚ) / 2 < y - ⌊y⌋ then ⌊y⌋ + 1
  else if ⌊y⌋ % 2 = 0 then ⌊y⌋ else ⌊y⌋ + 1

/-- Python `round(x, 2)` on the exact rational value: round `x * 100` to
the nearest integer, ties to even, and divide back by 100. -/
def pyRound2 (x : ℚ) : ℚ :=
  (pyRoundInt (x * 100) : ℚ) / 100

/-- The citation dict built for one retrieved `(chunk, distance)` pair:
`{'source': ..., 'page': ..., 'relevance': round(1 / (1 + distance), 2)}`. -/
def source_info_of (chunk : EmbeddedChunk) (distance : ℚ) : SourceCitation :=
  { source := chunk.source
    page := chunk.page_number
    relevance := pyRound2 (1 / (1 + distance)) }

/-- The source-extraction loop of `generate_answer`:
`if source_info not in sources: sources.append(source_info)` —
membership is Python structural equality of the whole dict. -/
def extract_sources (retrieved_chunks : List (EmbeddedChunk × ℚ)) :
    List SourceCitation :=
  retrieved_chunks.foldl
    (fun sources p =>
      let source_info := source_info_of p.1 p.2
      if source_info ∈ sources then sources else sources ++ [source_info])
    []

/-- Return value of `generate_answer`. -/
structure AnswerResult where
  answer : String
  sources : List SourceCitation
deriving Repr

/-- `generate_answer(question, retrieved_chunks)`: build context and
prompt, call the external generator (`ollama.chat`, passed in as a
function), and attach the extracted sources. -/
def generate_answer (ollama_chat : String → String) (question : String)
    (retrieved_chunks : List (EmbeddedChunk × ℚ)) : AnswerResult :=
  let context := build_context retrieved_chunks
  let prompt := create_prompt question context
  let answer := ollama_chat prompt
  { answer := answer, sources := extract_sources retrieved_chunks }

/-- Modelled from the spec's words (not from the source): first-occurrence
deduplication — scan the list, keep an element only if an equal one was
not kept before.  Used to characterise what `extract_sources` computes. -/
def dedupFirstOcc (seen : List SourceCitation) :
    List SourceCitation → List SourceCitation
  | [] => []
  | c :: rest =>
    if c ∈ seen then dedupFirstOcc seen rest
    else c :: dedupFirstOcc (c :: seen) rest

/- ----------------------------------------------------------------- -/
/- Concrete sample data for the counterexamples and failing inputs.   -/
/- ----------------------------------------------------------------- -/

/-- A stored chunk with a zero embedding of the configured dimension. -/
def chunkA : EmbeddedChunk :=
  { chunk_id := "doc.pdf_page1_chunk0", text := "alpha text", source := "doc.pdf"
    page_number := 1, embedding := List.replicate 384 0 }

/-- A second stored chunk with the same zero embedding. -/
def chunkB : EmbeddedChunk :=
  { chunk_id := "doc.pdf_page2_chunk0", text := "beta text", source := "doc.pdf"
    page_number := 2, embedding := List.replicate 384 0 }

/-- An index state holding exactly two vectors (as produced by
`add_chunks` of `[chunkA, chunkB]` on a fresh store). -/
def store2 : VectorStore :=
  { d := 384
    xs := [List.replicate 384 0, List.replicate 384 0]
    chunks := [chunkA, chunkB] }

/-- A retrieved fragment for the pipeline counterexamples. -/
def fragA : EmbeddedChunk :=
  { chunk_id := "doc.pdf_page1_chunk0", text := "fragment text", source := "doc.pdf"
    page_number := 1, embedding := List.replicate 384 0 }

/- ----------------------------------------------------------------- -/
/- Claim C4 — overlap precondition is not validated.                  -/
/- ----------------------------------------------------------------- -/

/-- C4: the claim says `split_text_into_chunks` validates
`0 ≤ overlap < chunk_size` and rejects violations with an error before
producing any fragment.  The code has no such check: whenever
`chunk_size ≤ overlap` and the text is non-empty, the cursor never
advances past the text and the `while` loop silently runs forever —
for every fuel bound the literal loop model is still running (`none`),
so the function neither raises nor returns. -/
theorem C4_overlap_not_validated (S O : Nat) (src : String) (pg : Nat)
    (text : List Char) (hSO : S ≤ O) (hL : 1 ≤ text.length)
    (fuel chunk_index : Nat) :
    splitLoopPy S O src pg text 0 chunk_index fuel = none :=
  splitLoopPy_stuck S O src pg text hSO hL fuel 0 chunk_index (le_refl 0)

/-- C4 witness: with `chunk_size = overlap = 500` on the one-character
text `"a"`, the loop is still running after any concrete amount of fuel. -/
theorem C4_overlap_not_validated_witness :
    500 ≤ 500 ∧ 1 ≤ ('a' :: []).length ∧
      splitLoopPy 500 500 "test.pdf" 1 ['a'] 0 0 7 = none :=
  ⟨le_refl 500, by decide,
    C4_overlap_not_validated 500 500 "test.pdf" 1 ['a'] (le_refl 500) (by decide) 7 0⟩

/- ----------------------------------------------------------------- -/
/- Claim C5 — fragment count and offsets.                             -/
/- ----------------------------------------------------------------- -/

/-- C5 counterexample: the claim's fragment-count formula says a text of
length `L ≤ S` yields one fragment; with `S = 5`, `O = 2` and the
4-character text `"aaaa"` the code produces 2 fragments (offsets 0 and
3), refuting the claim. -/
theorem C5_counterexample :
    (split_text_into_chunks 5 2 (String.mk (List.replicate 4 'a')) "test.pdf" 1).length = 2
      ∧ specFragmentCount (String.mk (List.replicate 4 'a')).data.length 5 2 = 1
      ∧ (split_text_into_chunks 5 2 (String.mk (List.replicate 4 'a')) "test.pdf" 1).length
          ≠ specFragmentCount (String.mk (List.replicate 4 'a')).data.length 5 2 := by
  decide

/-- C5 (amended): with `0 ≤ O < S`, `split_text_into_chunks` produces
exactly `⌈L / (S-O)⌉ = (L + (S-O) - 1) / (S-O)` fragments (`0` for empty
text), fragment `j` is the stripped slice starting at offset `j·(S-O)`,
and when `L ≥ 1` the last fragment's slice has length
`L - (S-O)·(n-1) ≤ S`.  (The claim's piecewise formula
`n = 1 if L ≤ S else ⌈(L-O)/(S-O)⌉` is wrong whenever
`S-O < L ≤ S` or `(L-O)` is not aligned; its concrete example
`S=500, O=50, L=1200 → 3 fragments at offsets 0, 450, 900` does hold and
follows from this theorem.) -/
theorem C5_chunk_count_amended (S O : Nat) (text : String) (src : String)
    (pg : Nat) (hO : O < S) :
    (split_text_into_chunks S O text src pg).length
        = (text.data.length + (S - O) - 1) / (S - O)
      ∧ (text.data.length = 0 → split_text_into_chunks S O text src pg = [])
      ∧ (∀ (j : Nat) (hj : j < (split_text_into_chunks S O text src pg).length),
          (split_text_into_chunks S O text src pg).get ⟨j, hj⟩
            = mkChunk src pg ((text.data.drop (j * (S - O))).take S) j)
      ∧ (1 ≤ text.data.length →
          ((text.data.drop
              (((split_text_into_chunks S O text src pg).length - 1) * (S - O))).take S).length
              = text.data.length
                - ((split_text_into_chunks S O text src pg).length - 1) * (S - O)
            ∧ text.data.length
                - ((split_text_into_chunks S O text src pg).length - 1) * (S - O) ≤ S) := by
  have hd : 0 < S - O := by omega
  have hlen := split_text_length S O text src pg hO
  refine ⟨hlen, ?_, fun j hj => split_text_get S O text src pg hO j hj, ?_⟩
  · intro h0
    have hz : (split_text_into_chunks S O text src pg).length = 0 := by
      rw [hlen, h0]
      have : 0 + (S - O) - 1 < S - O := by omega
      exact Nat.div_eq_of_lt this
    exact List.length_eq_zero.mp hz
  · intro hL
    have e : text.data.length + (S - O) - 1 = (text.data.length - 1) + (S - O) := by omega
    have hn2 : (split_text_into_chunks S O text src pg).length
        = (text.data.length - 1) / (S - O) + 1 := by
      rw [hlen, e, Nat.add_div_right _ hd]
    have hq := Nat.div_add_mod (text.data.length - 1) (S - O)
    have hcomm : ((text.data.length - 1) / (S - O)) * (S - O)
        = (S - O) * ((text.data.length - 1) / (S - O)) := Nat.mul_comm _ _
    have hr : (text.data.length - 1) % (S - O) < S - O := Nat.mod_lt _ hd
    have hn1 : (split_text_into_chunks S O text src pg).length - 1
        = (text.data.length - 1) / (S - O) := by
      rw [hn2, Nat.add_sub_cancel]
    rw [hn1]
    constructor
    · simp only [List.length_take, List.length_drop]
      omega
    · omega

/-- C5 witness: the spec's own example — `chunk_size = 500`,
`overlap = 50`, text length `1200` — yields exactly 3 fragments. -/
theorem C5_chunk_count_amended_witness :
    50 < 500 ∧
      (split_text_into_chunks 500 50 (String.mk (List.replicate 1200 'a')) "test.pdf" 1).length
        = 3 := by
  refine ⟨by decide, ?_⟩
  have h := (C5_chunk_count_amended 500 50 (String.mk (List.replicate 1200 'a'))
    "test.pdf" 1 (by decide)).1
  rw [h, data_mk, List.length_replicate]

/- ----------------------------------------------------------------- -/
/- Claim C6 — adjacent fragments share the overlap.                   -/
/- ----------------------------------------------------------------- -/

/-- Fallback chunk for `List.getD` in concrete statements. -/
def dummyChunk : Chunk :=
  { chunk_id := "", text := "", source := "", page_number := 0 }

/-- C6 counterexample: with `S = 5`, `O = 2` and the 7-character
whitespace-free text `"aaaaaaa"`, fragments 1 and 2 are adjacent but the
last 2 characters of fragment 1 (`"aa"`) differ from the first 2
characters of fragment 2 (`"a"`, a 1-character tail slice) — no
whitespace trimming is involved, so the claim's proviso cannot save it. -/
theorem C6_counterexample :
    (split_text_into_chunks 5 2 (String.mk (List.replicate 7 'a')) "test.pdf" 1).length = 3
      ∧ ¬ (((split_text_into_chunks 5 2 (String.mk (List.replicate 7 'a')) "test.pdf" 1).getD 1 dummyChunk).text.data.drop
            (((split_text_into_chunks 5 2 (String.mk (List.replicate 7 'a')) "test.pdf" 1).getD 1 dummyChunk).text.data.length - 2)
          = ((split_text_into_chunks 5 2 (String.mk (List.replicate 7 'a')) "test.pdf" 1).getD 2 dummyChunk).text.data.take 2) := by
  decide

/-- C6 (amended): for adjacent fragments `i` and `i+1` from the same
page, when fragment `i`'s slice is a full `chunk_size` slice
(`i·(S-O) + S ≤ L`) and stripping changes neither slice, the last `O`
characters of fragment `i` equal the first `O` characters of fragment
`i+1`.  (Without the full-slice condition the claim fails — see the
counterexample — because a short tail slice makes "the last O characters"
overshoot the shared region.) -/
theorem C6_overlap_amended (S O : Nat) (text : String) (src : String) (pg : Nat)
    (i : Nat) (hO : O < S)
    (hi : i + 1 < (split_text_into_chunks S O text src pg).length)
    (hfull : i * (S - O) + S ≤ text.data.length)
    (h1 : pyStrip ((text.data.drop (i * (S - O))).take S)
        = (text.data.drop (i * (S - O))).take S)
    (h2 : pyStrip ((text.data.drop ((i + 1) * (S - O))).take S)
        = (text.data.drop ((i + 1) * (S - O))).take S) :
    ((split_text_into_chunks S O text src pg).get ⟨i, Nat.lt_of_succ_lt hi⟩).text.data.drop
        (((split_text_into_chunks S O text src pg).get ⟨i, Nat.lt_of_succ_lt hi⟩).text.data.length - O)
      = ((split_text_into_chunks S O text src pg).get ⟨i + 1, hi⟩).text.data.take O := by
  have g1 := split_text_get S O text src pg hO i (Nat.lt_of_succ_lt hi)
  have g2 := split_text_get S O text src pg hO (i + 1) hi
  rw [g1, g2]
  simp only [mkChunk]
  rw [h1, h2]
  have hlen1 : ((text.data.drop (i * (S - O))).take S).length = S := by
    simp only [List.length_take, List.length_drop]
    omega
  rw [hlen1, List.drop_take, List.drop_drop]
  have e1 : S - (S - O) = O := by omega
  have e2 : i * (S - O) + (S - O) = (i + 1) * (S - O) := by ring
  rw [e1, e2, List.take_take]
  have e3 : min O S = O := by omega
  rw [e3]

/-- C6 witness: `S = 5`, `O = 2`, text `"abcdefgh"`; fragment 0 is the
full slice `"abcde"` and fragment 1 is `"defgh"`, sharing `"de"`. -/
theorem C6_overlap_amended_witness :
    ((split_text_into_chunks 5 2 "abcdefgh" "test.pdf" 1).get ⟨0, by decide⟩).text.data.drop
        (((split_text_into_chunks 5 2 "abcdefgh" "test.pdf" 1).get ⟨0, by decide⟩).text.data.length - 2)
      = ((split_text_into_chunks 5 2 "abcdefgh" "test.pdf" 1).get ⟨0 + 1, by decide⟩).text.data.take 2 :=
  C6_overlap_amended 5 2 "abcdefgh" "test.pdf" 1 0 (by decide) (by decide) (by decide)
    (by decide) (by decide)

/- ----------------------------------------------------------------- -/
/- Claims C2, C3 — `VectorStore.search` on degenerate `k`.            -/
/- ----------------------------------------------------------------- -/

lemma sqL2_replicate_zero (n : Nat) :
    sqL2 (List.replicate n 0) (List.replicate n 0) = 0 := by
  induction n with
  | zero => rfl
  | succ n ih =>
    have h : sqL2 (List.replicate (n + 1) 0) (List.replicate (n + 1) 0)
        = ((0 : ℚ) - 0) * ((0 : ℚ) - 0)
            + sqL2 (List.replicate n 0) (List.replicate n 0) := rfl
    rw [h, ih]
    norm_num

set_option maxRecDepth 4000 in
lemma faissSearch_store2_eval :
    faissSearch store2.d store2.xs (List.replicate 384 0) 5
      = Except.ok [((0 : ℚ), (0 : Int)), ((0 : ℚ), (1 : Int)),
          (faissFltMax, -1), (faissFltMax, -1), (faissFltMax, -1)] := by
  show faissSearch 384 [List.replicate 384 0, List.replicate 384 0]
      (List.replicate 384 0) 5 = _
  have hsq := sqL2_replicate_zero 384
  unfold faissSearch
  rw [if_neg (by simp), if_neg (by decide)]
  simp only [distsFrom, hsq]
  exact congrArg Except.ok (by decide)

set_option maxRecDepth 4000 in
/-- C2: the claim says `search(q, k)` returns exactly
`min(k, total_stored)` results, in particular 2 results for `k = 5` on an
index holding 2 vectors.  The code instead returns 5: FAISS pads the
missing 3 slots with label `-1` and distance `FLT_MAX`, the guard
`idx < len(self.chunks)` admits `-1`, and Python's negative indexing
resolves `self.chunks[-1]` to the **last** stored chunk, so the padding
slots surface as 3 spurious duplicates of `chunkB`. -/
theorem C2_search_result_count :
    VectorStore.add_chunks VectorStore.init [chunkA, chunkB] = Except.ok store2
      ∧ VectorStore.search store2 (List.replicate 384 0) 5
          = Except.ok [(chunkA, (0 : ℚ)), (chunkB, 0), (chunkB, faissFltMax),
              (chunkB, faissFltMax), (chunkB, faissFltMax)]
      ∧ ([(chunkA, (0 : ℚ)), (chunkB, 0), (chunkB, faissFltMax),
          (chunkB, faissFltMax), (chunkB, faissFltMax)].length ≠ min 5 store2.xs.length) := by
  refine ⟨rfl, ?_, by decide⟩
  unfold VectorStore.search VectorStore.searchM
  rw [faissSearch_store2_eval]
  rfl

set_option maxRecDepth 4000 in
/-- C3: the claim says `search` with `k ≤ 0`, or on an empty index,
returns an empty list and raises no error.  The code raises in both
cases: on an empty index FAISS returns label `-1` for every slot, the
guard `-1 < len(self.chunks)` passes, and `self.chunks[-1]` on the empty
list raises `IndexError`; for `k ≤ 0` FAISS itself rejects the call
(`k > 0` assertion). -/
theorem C3_degenerate_search_raises :
    VectorStore.search VectorStore.init (List.replicate 384 0) 5
        = Except.error "IndexError: list index out of range"
      ∧ VectorStore.search store2 (List.replicate 384 0) 0
        = Except.error "RuntimeError: k must be positive" :=
  ⟨rfl, rfl⟩

/- ----------------------------------------------------------------- -/
/- Claim C7 — persist then restore reproduces search output.          -/
/- ----------------------------------------------------------------- -/

/-- C7: `save_to_disk` followed by `load_from_disk` on a fresh store
succeeds and reproduces the exact original state, so `search(q, k)` on
the restored store returns the identical value — same fragments, same
order, same distances, and the same error on erroneous inputs — for
every query vector and every `k`. -/
theorem C7_persist_restore_roundtrip (vs : VectorStore) (disk : DiskState)
    (q : List ℚ) (k : Int) :
    (VectorStore.load_from_disk VectorStore.init (VectorStore.save_to_disk vs disk)).1 = true
      ∧ VectorStore.search
          (VectorStore.load_from_disk VectorStore.init (VectorStore.save_to_disk vs disk)).2 q k
        = VectorStore.search vs q k :=
  ⟨rfl, rfl⟩

/- ----------------------------------------------------------------- -/
/- Claim C9 — `len(fragments) == len(vectors)` invariant.             -/
/- ----------------------------------------------------------------- -/

/-- C9: the parallel-sequences invariant holds for the fresh store and is
preserved by every operation: a successful `add_chunks` of a batch of
size `N` grows both sequences by exactly `N` (a failed one raises before
touching the state), `search` leaves the state untouched, and
`save_to_disk` followed by `load_from_disk` reproduces an
invariant-satisfying state (a failed restore leaves the state unchanged). -/
theorem C9_parallel_invariant :
    lenInv VectorStore.init
      ∧ (∀ (vs : VectorStore) (batch : List EmbeddedChunk) (vs' : VectorStore),
          VectorStore.add_chunks vs batch = Except.ok vs' →
            vs'.xs.length = vs.xs.length + batch.length
              ∧ vs'.chunks.length = vs.chunks.length + batch.length
              ∧ (lenInv vs → lenInv vs'))
      ∧ (∀ (vs : VectorStore) (q : List ℚ) (k : Int), (vs.searchM q k).2 = vs)
      ∧ (∀ (vs vs0 : VectorStore) (disk : DiskState), lenInv vs →
          lenInv (VectorStore.load_from_disk vs0 (VectorStore.save_to_disk vs disk)).2)
      ∧ (∀ (vs0 : VectorStore) (disk : DiskState),
          disk.faiss_index = none ∨ disk.chunks_pkl = none → lenInv vs0 →
            lenInv (VectorStore.load_from_disk vs0 disk).2) := by
  refine ⟨rfl, ?_, fun vs q k => rfl, ?_, ?_⟩
  · intro vs batch vs' h
    simp only [VectorStore.add_chunks] at h
    split_ifs at h with h1 h2 h3
    have hv := Except.ok.inj h
    subst hv
    refine ⟨?_, ?_, ?_⟩
    · simp [List.length_append, List.length_map]
    · simp [List.length_append]
    · intro hi
      unfold lenInv at hi ⊢
      simp only [List.length_append, List.length_map]
      omega
  · intro vs vs0 disk hi
    unfold lenInv at hi ⊢
    simpa [VectorStore.load_from_disk, VectorStore.save_to_disk] using hi
  · intro vs0 disk hmiss hi
    obtain ⟨fi, cp⟩ := disk
    cases fi with
    | none =>
      cases cp with
      | none => simpa [VectorStore.load_from_disk] using hi
      | some cs => simpa [VectorStore.load_from_disk] using hi
    | some f =>
      cases cp with
      | none => simpa [VectorStore.load_from_disk] using hi
      | some cs =>
        rcases hmiss with hm | hm <;> simp at hm

/-- An index state holding exactly one vector, the result of adding
`[chunkA]` to a fresh store. -/
def store1A : VectorStore :=
  { d := 384, xs := [List.replicate 384 0], chunks := [chunkA] }

set_option maxRecDepth 4000 in
/-- C9 witness: adding the singleton batch `[chunkA]` to the fresh store
grows both parallel sequences from 0 to 1 and preserves the invariant. -/
theorem C9_parallel_invariant_witness :
    VectorStore.add_chunks VectorStore.init [chunkA] = Except.ok store1A
      ∧ store1A.xs.length = VectorStore.init.xs.length + 1
      ∧ store1A.chunks.length = VectorStore.init.chunks.length + 1
      ∧ lenInv store1A := by
  have hadd : VectorStore.add_chunks VectorStore.init [chunkA] = Except.ok store1A := rfl
  have h := C9_parallel_invariant.2.1 VectorStore.init [chunkA] store1A hadd
  exact ⟨hadd, h.1, h.2.1, h.2.2 rfl⟩

/- ----------------------------------------------------------------- -/
/- Claim C10 — `search` does not mutate the index.                    -/
/- ----------------------------------------------------------------- -/

/-- C10: `VectorStore.search` in state-passing form returns the input
state unchanged for every index state, query vector and `k` — the method
body only reads `self.index` and `self.chunks` (whether it returns a
result list or raises), as `searchM` records. -/
theorem C10_search_preserves_state (vs : VectorStore) (q : List ℚ) (k : Int) :
    (vs.searchM q k).2 = vs :=
  rfl

/- ----------------------------------------------------------------- -/
/- Claim C8 — context format.                                         -/
/- ----------------------------------------------------------------- -/

lemma foldl_append_singleton {α β : Type} (f : α → β) :
    ∀ (l : List α) (acc : List β),
      l.foldl (fun a x => a ++ [f x]) acc = acc ++ l.map f := by
  intro l
  induction l with
  | nil => intro acc; simp
  | cons x xs ih => intro acc; simp [ih]

/-- C8 counterexample: the claim says each entry of the context is a
header of the form `[Source: {source}, Page {page_number}]` followed by
the fragment's text.  The code prepends `"Chunk {i} "` and appends `":"`
to the header and a newline to the text, so the context for a single
result begins with `"Chunk 1 ["`, not with `"[Source:"` as every reading
of the claimed format requires. -/
theorem C8_counterexample :
    build_context [(fragA, 0)] = "Chunk 1 [Source: doc.pdf, Page 1]:\nfragment text\n"
      ∧ (build_context [(fragA, 0)]).data.take 8 ≠ "[Source:".data := by
  exact ⟨rfl, by decide⟩

/-- C8 (amended): `build_context(results)` is the `"\n"`-join, in the
given order without re-sorting, of the entries
`"Chunk {i} [Source: {source}, Page {page_number}]:\n{text}\n"` for the
1-based position `i` — since every entry ends with a newline and the
entries are joined with a newline, consecutive entries are separated by a
blank line. -/
theorem C8_context_format (retrieved_chunks : List (EmbeddedChunk × ℚ)) :
    build_context retrieved_chunks
      = String.intercalate "\n"
          ((List.enumFrom 1 retrieved_chunks).map
            (fun p => "Chunk " ++ toString p.1 ++ " [Source: " ++ p.2.1.source
              ++ ", Page " ++ toString p.2.1.page_number ++ "]:\n" ++ p.2.1.text ++ "\n")) := by
  unfold build_context
  rw [foldl_append_singleton]
  rw [List.nil_append]

/- ----------------------------------------------------------------- -/
/- Claim C1 — citation deduplication in `generate_answer`.            -/
/- ----------------------------------------------------------------- -/

lemma dedupFirstOcc_congr :
    ∀ (l s1 s2 : List SourceCitation), (∀ c, c ∈ s1 ↔ c ∈ s2) →
      dedupFirstOcc s1 l = dedupFirstOcc s2 l := by
  intro l
  induction l with
  | nil => intro s1 s2 _; rfl
  | cons c rest ih =>
    intro s1 s2 h
    by_cases hc : c ∈ s1
    · simp only [dedupFirstOcc, if_pos hc, if_pos ((h c).mp hc)]
      exact ih s1 s2 h
    · have hc2 : c ∉ s2 := fun hx => hc ((h c).mpr hx)
      simp only [dedupFirstOcc, if_neg hc, if_neg hc2]
      exact congrArg (List.cons c)
        (ih (c :: s1) (c :: s2)
          (fun d => by rw [List.mem_cons, List.mem_cons, h d]))

lemma extract_sources_foldl (l : List (EmbeddedChunk × ℚ)) :
    ∀ acc : List SourceCitation,
      l.foldl (fun sources p =>
          let source_info := source_info_of p.1 p.2
          if source_info ∈ sources then sources else sources ++ [source_info]) acc
        = acc ++ dedupFirstOcc acc (l.map (fun p => source_info_of p.1 p.2)) := by
  induction l with
  | nil => intro acc; simp [dedupFirstOcc]
  | cons p rest ih =>
    intro acc
    simp only [List.foldl_cons, List.map_cons]
    by_cases hc : source_info_of p.1 p.2 ∈ acc
    · rw [if_pos hc]
      simp only [dedupFirstOcc, if_pos hc]
      exact ih acc
    · rw [if_neg hc]
      rw [ih (acc ++ [source_info_of p.1 p.2])]
      simp only [dedupFirstOcc, if_neg hc]
      rw [dedupFirstOcc_congr (rest.map (fun p => source_info_of p.1 p.2))
        (acc ++ [source_info_of p.1 p.2]) (source_info_of p.1 p.2 :: acc)
        (fun d => by
          simp only [List.mem_append, List.mem_cons, List.not_mem_nil, or_false]
          tauto)]
      simp

lemma dedupFirstOcc_nodup :
    ∀ (l seen : List SourceCitation),
      (dedupFirstOcc seen l).Nodup ∧ ∀ c ∈ dedupFirstOcc seen l, c ∉ seen := by
  intro l
  induction l with
  | nil =>
    intro seen
    exact ⟨List.nodup_nil, by simp [dedupFirstOcc]⟩
  | cons c rest ih =>
    intro seen
    by_cases hc : c ∈ seen
    · simp only [dedupFirstOcc, if_pos hc]
      exact ih seen
    · simp only [dedupFirstOcc, if_neg hc]
      obtain ⟨hnd, hmem⟩ := ih (c :: seen)
      constructor
      · rw [List.nodup_cons]
        exact ⟨fun hx => (hmem c hx) (List.mem_cons_self c seen), hnd⟩
      · intro d hd
        rcases List.mem_cons.mp hd with rfl | hd'
        · exact hc
        · exact fun hds => (hmem d hd') (List.mem_cons_of_mem _ hds)

/-- C1 (amended): the citation list of `generate_answer` is the
first-occurrence deduplication of the per-result citations
`{source, page, relevance = round(1/(1+distance), 2)}` — but keyed by
structural equality of the **whole** record `(source, page, relevance)`,
not by the composite key `(source, page_number)`: two results with the
same source and page but distances rounding to different relevance each
contribute a citation.  The list is duplicate-free under that equality. -/
theorem C1_citation_dedup_amended (g : String → String) (question : String)
    (results : List (EmbeddedChunk × ℚ)) :
    (generate_answer g question results).sources
        = dedupFirstOcc [] (results.map (fun p => source_info_of p.1 p.2))
      ∧ (generate_answer g question results).sources.Nodup := by
  have h2 : extract_sources results
      = [] ++ dedupFirstOcc [] (results.map (fun p => source_info_of p.1 p.2)) :=
    extract_sources_foldl results []
  rw [List.nil_append] at h2
  have he : (generate_answer g question results).sources = extract_sources results := rfl
  constructor
  · rw [he, h2]
  · rw [he, h2]
    exact (dedupFirstOcc_nodup (results.map (fun p => source_info_of p.1 p.2)) []).1

lemma extract_sources_pair (c1 c2 : EmbeddedChunk) (d1 d2 : ℚ)
    (hne : source_info_of c2 d2 ≠ source_info_of c1 d1) :
    extract_sources [(c1, d1), (c2, d2)]
      = [source_info_of c1 d1, source_info_of c2 d2] := by
  unfold extract_sources
  simp only [List.foldl_cons, List.foldl_nil]
  rw [if_neg (List.not_mem_nil _), if_neg (by simp [hne])]
  simp

lemma pyRound2_one : pyRound2 (1 / (1 + (0 : ℚ))) = 1 := by
  have hx : (1 : ℚ) / (1 + 0) * 100 = 100 := by norm_num
  unfold pyRound2 pyRoundInt
  rw [hx]
  have hf : ⌊(100 : ℚ)⌋ = 100 := by norm_num
  rw [hf, if_pos (by norm_num)]
  norm_num

lemma pyRound2_two_thirds : pyRound2 (1 / (1 + (1 : ℚ) / 2)) = 67 / 100 := by
  have hx : (1 : ℚ) / (1 + 1 / 2) * 100 = 200 / 3 := by norm_num
  unfold pyRound2 pyRoundInt
  rw [hx]
  have hf : ⌊(200 : ℚ) / 3⌋ = 66 := by norm_num
  rw [hf, if_neg (by norm_num), if_pos (by norm_num)]
  norm_num

/-- C1 counterexample: on the claim's own example input
`[(fragA, 0.0), (fragA, 0.5)]` the relevances round to `1.0` and `0.67`,
so the two structurally different citation dicts are **both** kept: the
returned citation list contains `fragA`'s `(source, page)` pair twice,
not "exactly once" as the claim states. -/
theorem C1_counterexample :
    ((generate_answer (fun _ => "answer") "q" [(fragA, 0), (fragA, 1 / 2)]).sources.map
        (fun c => (c.source, c.page)))
        = [("doc.pdf", 1), ("doc.pdf", 1)]
      ∧ (generate_answer (fun _ => "answer") "q" [(fragA, 0), (fragA, 1 / 2)]).sources.length
          ≠ 1 := by
  have hne : source_info_of fragA (1 / 2) ≠ source_info_of fragA 0 := by
    intro h
    have hrel := congrArg SourceCitation.relevance h
    simp only [source_info_of] at hrel
    rw [pyRound2_one, pyRound2_two_thirds] at hrel
    norm_num at hrel
  have hsources : (generate_answer (fun _ => "answer") "q"
      [(fragA, 0), (fragA, 1 / 2)]).sources
      = [source_info_of fragA 0, source_info_of fragA (1 / 2)] :=
    extract_sources_pair fragA fragA 0 (1 / 2) hne
  constructor
  · rw [hsources]
    rfl
  · rw [hsources]
    decide
